import Mathlib

/-!
Verification development for the `vec2tif` CSV-to-GeoTIFF converter
(`src/vec2tif/csv2tif.py`).  The Python source is shallowly embedded:
coordinates and cell values are modelled as rationals (`ℚ`, the exact
idealisation of the Python floats), Python's `int()` conversion as
truncation toward zero, fallible code as `Except`, and the file system
as an explicit existence predicate.  Third-party library calls that the
source depends on (`haversine.inverse_haversine`,
`rasterio.features.rasterize`, `rasterio.transform.from_bounds`) are
modelled from their documented semantics; `inverse_haversine` is kept
abstract (a function parameter), since every claim is independent of the
actual spherical trigonometry.
-/

set_option autoImplicit false

namespace Vec2Tif

/-- Python `int()` applied to a real quantity: truncation toward zero. -/
def truncRat (q : ℚ) : Int := if 0 ≤ q then ⌊q⌋ else ⌈q⌉

/-- Python `str.lower()` on the ASCII column names and extensions this
program compares (kernel-reducible counterpart of `String.toLower`). -/
def lowerStr (x : String) : String := String.mk (x.toList.map Char.toLower)

/-- Latitude-alias test of `get_latlon_names`:
`x.lower() == "latitude" or x.lower() == "lat"`. -/
def isLatName (x : String) : Bool := lowerStr x == "latitude" || lowerStr x == "lat"

/-- Longitude-alias test of `get_latlon_names`:
`x.lower() == "longitude" or x.lower() == "lng"`. -/
def isLngName (x : String) : Bool := lowerStr x == "longitude" || lowerStr x == "lng"

/-- Result dictionary of `get_latlon_names`: for each axis the matched
column's `(index, name)` pair. -/
structure LatLng where
  lat : Nat × String
  lng : Nat × String
  deriving DecidableEq

/-- The `for i, x in enumerate(columns)` loop of `get_latlon_names`:
each alias match overwrites the previously stored `(i, x)` pair
(`result["lat"] = (i, x)` respectively `result["lng"] = (i, x)`).
Accumulators start as `none`, modelling the empty tuples `()`. -/
def scanLatLng : Nat → List String → Option (Nat × String) → Option (Nat × String) →
    Option (Nat × String) × Option (Nat × String)
  | _, [], la, lo => (la, lo)
  | i, x :: xs, la, lo =>
    if isLatName x then scanLatLng (i + 1) xs (some (i, x)) lo
    else if isLngName x then scanLatLng (i + 1) xs la (some (i, x))
    else scanLatLng (i + 1) xs la lo

/-- The two `KeyError` messages of `get_latlon_names`; the payload is the
full column-name list interpolated into the message
(`"Latitude is not found! {}".format(columns)`). -/
inductive ResolveError where
  | latNotFound (columns : List String)
  | lngNotFound (columns : List String)
  deriving DecidableEq

/-- Does a resolver error name longitude as the unresolved axis?
(Spec-side predicate, used to compare against the spec's error contract.) -/
def ResolveError.namesLongitude : ResolveError → Bool
  | .latNotFound _ => false
  | .lngNotFound _ => true

/-- Error dispatch of `get_latlon_names`: `result["lat"] == ()` is
tested first, `result["lng"] == ()` second. -/
def getLatLonAux (columns : List String) :
    Option (Nat × String) × Option (Nat × String) → Except ResolveError LatLng
  | (none, _) => .error (.latNotFound columns)
  | (some _, none) => .error (.lngNotFound columns)
  | (some la, some lo) => .ok ⟨la, lo⟩

/-- Embedding of `get_latlon_names` (`csv2tif.py` lines 13-31): scan the
header, then dispatch on which axes were found. -/
def get_latlon_names (columns : List String) : Except ResolveError LatLng :=
  getLatLonAux columns (scanLatLng 0 columns none none)

/-- Spec-side description of one axis of the scan: the last column (in a
single left-to-right pass, indices counted from `i`) satisfying `p`
replaces the accumulator. -/
def lastMatchScan (p : String → Bool) : Nat → List String → Option (Nat × String) →
    Option (Nat × String)
  | _, [], acc => acc
  | i, x :: xs, acc => lastMatchScan p (i + 1) xs (if p x then some (i, x) else acc)

/-- A parsed CSV table as `pandas.read_csv` delivers it: a header of
column names (pandas guarantees they are pairwise distinct, mangling
duplicates) and rows of numeric values. -/
structure Table where
  header : List String
  rows : List (List ℚ)

/-- The two compass directions the converter feeds to
`haversine.inverse_haversine`. -/
inductive Direction where
  | north
  | east
  deriving DecidableEq

/-- Geodetic bounding box in `geopandas` `total_bounds` order
`(minx, miny, maxx, maxy)` = (min lon, min lat, max lon, max lat). -/
structure BBox where
  minLon : ℚ
  minLat : ℚ
  maxLon : ℚ
  maxLat : ℚ
  deriving DecidableEq

/-- Bounding box of the point list `g0 :: rest` (points are `(lon, lat)`
pairs, i.e. shapely `(x, y)`), as computed by `gdf.total_bounds`. -/
def bboxOf (g0 : ℚ × ℚ) (rest : List (ℚ × ℚ)) : BBox where
  minLon := rest.foldl (fun a p => min a p.1) g0.1
  minLat := rest.foldl (fun a p => min a p.2) g0.2
  maxLon := rest.foldl (fun a p => max a p.1) g0.1
  maxLat := rest.foldl (fun a p => max a p.2) g0.2

/-- Affine georeference in the form produced by
`rasterio.transform.from_bounds`: anchored at the north-west corner with
per-cell sizes `cw` (eastward) and `ch` (southward). -/
structure Transform where
  west : ℚ
  north : ℚ
  cw : ℚ
  ch : ℚ
  deriving DecidableEq

/-- Modelled from the documented semantics of
`rasterio.transform.from_bounds(west, south, east, north, width, height)`:
cell sizes are the bounding-box extents divided by the cell counts. -/
def fromBounds (b : BBox) (nxy : Int × Int) : Transform where
  west := b.minLon
  north := b.maxLat
  cw := (b.maxLon - b.minLon) / (nxy.1 : ℚ)
  ch := (b.maxLat - b.minLat) / (nxy.2 : ℚ)

/-- Modelled from the documented semantics of rasterio's
`rowcol`/rasterization: the `(row, column)` cell containing point
`(x, y)` under transform `tr`. -/
def rowcolOf (tr : Transform) (p : ℚ × ℚ) : Int × Int :=
  (⌊(tr.north - p.2) / tr.ch⌋, ⌊(p.1 - tr.west) / tr.cw⌋)

/-- A dense raster band: a `rows × cols` array of cell values, modelled
as a total function on indices. -/
structure Grid where
  rows : Nat
  cols : Nat
  val : Nat → Nat → ℚ

/-- In-place update of one array cell. -/
def Grid.setCell (g : Grid) (r c : Nat) (v : ℚ) : Grid :=
  { g with val := fun a b => if a = r ∧ b = c then v else g.val a b }

/-- The `numpy.full(out_shape, fill)` array `rasterize` starts from;
`outShape` is passed exactly as the source passes `out_shape`. -/
def fillGrid (outShape : Int × Int) (fill : ℚ) : Grid where
  rows := outShape.1.toNat
  cols := outShape.2.toNat
  val := fun _ _ => fill

/-- Burn one `(point, value)` pair: write the value into the cell that
contains the point, if that cell lies inside the array. -/
def burnOne (tr : Transform) (g : Grid) (pv : (ℚ × ℚ) × ℚ) : Grid :=
  if 0 ≤ (rowcolOf tr pv.1).1 ∧ (rowcolOf tr pv.1).1 < (g.rows : Int) ∧
      0 ≤ (rowcolOf tr pv.1).2 ∧ (rowcolOf tr pv.1).2 < (g.cols : Int) then
    g.setCell (rowcolOf tr pv.1).1.toNat (rowcolOf tr pv.1).2.toNat pv.2
  else g

/-- Modelled from the documented semantics of
`rasterio.features.rasterize(shapes, out_shape, transform, fill,
all_touched)`: geometries are burned in the order given, later values
overwriting earlier ones in the same cell; untouched cells keep `fill`.
For point geometries, `all_touched` makes no difference: the point burns
exactly its containing cell. -/
def rasterize (shapes : List ((ℚ × ℚ) × ℚ)) (outShape : Int × Int) (tr : Transform)
    (fill : ℚ) : Grid :=
  shapes.foldl (burnOne tr) (fillGrid outShape fill)

/-- The `profile` dictionary handed to `rasterio.open`
(`csv2tif.py` lines 102-111). -/
structure Profile where
  driver : String
  width : Int
  height : Int
  count : Nat
  dtype : String
  crs : String
  transform : Transform
  nodata : ℚ

/-- The written raster: its profile and the bands written by the
`for i, z_name in enumerate(df.columns)` loop, each tagged with the
attribute column it came from, in that loop's order. -/
structure Output where
  profile : Profile
  bands : List (String × Grid)

/-- Failure modes of `convert_csv`:
* `resolve`: the `KeyError` from `get_latlon_names`;
* `emptyInput`: the lookup `gdf.geometry[0]` on an empty table raises;
* `unitZero`: a zero degrees-per-cell unit makes
  `(bbox extent) / unit` ill-defined (numpy yields inf/nan and the
  subsequent `int()` raises);
* `gridZero`: a zero cell count makes `rasterio.transform.from_bounds`
  divide by zero (`ZeroDivisionError`). -/
inductive ConvErr where
  | resolve (e : ResolveError)
  | emptyInput
  | unitZero
  | gridZero
  deriving DecidableEq

/-- The `df.drop([...], axis=1)` step: the surviving columns, each with
its original position in the header, in original header order. -/
def dropCols (hdr : List String) (la lo : String) : List (Nat × String) :=
  (List.enumFrom 0 hdr).filter (fun p => !(p.2 == la) && !(p.2 == lo))

/-- The value the success path of `convert_csv` writes, assembled from
the resolved coordinate columns `ll` and the point list `g0 :: grest`
(`csv2tif.py` lines 89-121).  `point0 = (g0.2, g0.1)` is
`(gdf.geometry[0].y, gdf.geometry[0].x)`, i.e. (lat, lon) of the first
row; `unit` is the (east longitude delta, north latitude delta) of the
`inverse_haversine` offsets; `nxy` the truncated cell counts. -/
def successOutput (ih : (ℚ × ℚ) → ℚ → Direction → ℚ × ℚ) (resolution : ℚ)
    (crsCode : Nat) (t : Table) (ll : LatLng) (g0 : ℚ × ℚ) (grest : List (ℚ × ℚ)) :
    Output :=
  let point0 : ℚ × ℚ := (g0.2, g0.1)
  let unit : ℚ × ℚ :=
    ((ih point0 resolution .east).2 - point0.2, (ih point0 resolution .north).1 - point0.1)
  let bbox := bboxOf g0 grest
  let nxy : Int × Int :=
    (truncRat ((bbox.maxLon - bbox.minLon) / unit.1),
     truncRat ((bbox.maxLat - bbox.minLat) / unit.2))
  let tr := fromBounds bbox nxy
  let nodata : ℚ := -9999
  let keep := dropCols t.header ll.lat.2 ll.lng.2
  { profile :=
      { driver := "GTiff"
      , width := nxy.1
      , height := nxy.2
      , count := keep.length
      , dtype := "float32"
      , crs := "EPSG:" ++ toString crsCode
      , transform := tr
      , nodata := nodata }
  , bands := keep.map (fun ix =>
      (ix.2, rasterize ((g0 :: grest).zip (t.rows.map (fun row => row.getD ix.1 0)))
        nxy tr nodata)) }

/-- Stage of `convert_csv` after the point geometries have been built:
`gdf.geometry[0]` raises on an empty table; otherwise the grid is sized
from the first point and the bands are rasterized and written.  The two
error guards translate Python's division semantics: a zero `unit`
component blows up the `int((bbox extent)/unit)` computations, a zero
`nxy` component blows up `rasterio.transform.from_bounds`. -/
def convert_csvAux2 (ih : (ℚ × ℚ) → ℚ → Direction → ℚ × ℚ) (resolution : ℚ)
    (crsCode : Nat) (t : Table) (ll : LatLng) : List (ℚ × ℚ) → Except ConvErr Output
  | [] => .error .emptyInput
  | g0 :: grest =>
    if (ih (g0.2, g0.1) resolution .east).2 - g0.1 = 0 ∨
        (ih (g0.2, g0.1) resolution .north).1 - g0.2 = 0 then
      .error .unitZero
    else if
        truncRat (((bboxOf g0 grest).maxLon - (bboxOf g0 grest).minLon) /
            ((ih (g0.2, g0.1) resolution .east).2 - g0.1)) = 0 ∨
        truncRat (((bboxOf g0 grest).maxLat - (bboxOf g0 grest).minLat) /
            ((ih (g0.2, g0.1) resolution .north).1 - g0.2)) = 0 then
      .error .gridZero
    else
      .ok (successOutput ih resolution crsCode t ll g0 grest)

/-- Stage of `convert_csv` after `get_latlon_names`: build the point
list `zip(df[lng], df[lat])` (values fetched by the resolved column
positions; pandas column names are unique, so label and positional
access agree). -/
def convert_csvAux1 (ih : (ℚ × ℚ) → ℚ → Direction → ℚ × ℚ) (resolution : ℚ)
    (crsCode : Nat) (t : Table) : Except ResolveError LatLng → Except ConvErr Output
  | .error e => .error (.resolve e)
  | .ok ll =>
    convert_csvAux2 ih resolution crsCode t ll
      (t.rows.map (fun row => (row.getD ll.lng.1 0, row.getD ll.lat.1 0)))

/-- Embedding of `Csv2Tif.convert_csv` (`csv2tif.py` lines 64-121),
parametrised by the abstract `inverse_haversine` function `ih`
(argument order: (lat, lon) point, distance in meters, direction). -/
def convert_csv (ih : (ℚ × ℚ) → ℚ → Direction → ℚ × ℚ) (resolution : ℚ)
    (crsCode : Nat) (t : Table) : Except ConvErr Output :=
  convert_csvAux1 ih resolution crsCode t (get_latlon_names t.header)

/-- Python `os.path.basename`: the part after the last path separator. -/
def basenameOf (p : String) : String :=
  let cs := p.toList
  match ((List.enumFrom 0 cs).filter (fun q => q.2 == '/')).getLast?.map Prod.fst with
  | none => p
  | some i => String.mk (cs.drop (i + 1))

/-- Python `os.path.dirname`: everything before the last path separator. -/
def dirnameOf (p : String) : String :=
  let cs := p.toList
  match ((List.enumFrom 0 cs).filter (fun q => q.2 == '/')).getLast?.map Prod.fst with
  | none => ""
  | some i => String.mk (cs.take i)

/-- Python `os.path.join` for the two-argument case used by the source. -/
def pyJoin (d b : String) : String := if d = "" then b else d ++ "/" ++ b

/-- Python `os.path.splitext` on a basename: the extension starts at the
last dot provided some earlier character of the name is not a dot
(so purely leading dots are part of the name, as in CPython). -/
def pySplitext (b : String) : String × String :=
  let cs := b.toList
  match ((List.enumFrom 0 cs).filter (fun q => q.2 == '.')).getLast?.map Prod.fst with
  | none => (b, "")
  | some i =>
    if (cs.take i).any (fun ch => ch != '.') then
      (String.mk (cs.take i), String.mk (cs.drop i))
    else (b, "")

/-- Failure modes of `Csv2Tif.execute_one`: the two `OSError`s of the
validation block, plus any propagated `convert_csv` failure. -/
inductive ExecErr where
  | fileNotFound
  | invalidExtension
  | conv (e : ConvErr)
  deriving DecidableEq

/-- Embedding of `Csv2Tif.execute_one` (`csv2tif.py` lines 124-143),
parametrised by the file system (`fsExists` models `os.path.lexists`,
`readCsv` models `pandas.read_csv`).  On success it returns the derived
output path together with the written raster. -/
def execute_one (ih : (ℚ × ℚ) → ℚ → Direction → ℚ × ℚ) (resolution : ℚ)
    (crsCode : Nat) (fsExists : String → Bool) (readCsv : String → Table)
    (input_file_name : String) : Except ExecErr (String × Output) :=
  let bs := pySplitext (basenameOf input_file_name)
  let suffix := lowerStr bs.2
  if fsExists input_file_name = false then .error .fileNotFound
  else if suffix ≠ ".csv" then .error .invalidExtension
  else
    match convert_csv ih resolution crsCode (readCsv input_file_name) with
    | .error e => .error (.conv e)
    | .ok out => .ok (pyJoin (dirnameOf input_file_name) (bs.1 ++ ".tif"), out)

/-- The `Csv2Tif` instance state, field for field
(`csv2tif.py` lines 45-62). -/
structure Csv2Tif where
  input_file_list : List String
  n_inputs : Nat
  crs_code : Nat
  resolution : ℚ
  output_file_list : List String

/-- Embedding of `Csv2Tif.__init__`. -/
def Csv2Tif.new (input_file_list : List String) (crs_code : Nat) (resolution : ℚ) :
    Csv2Tif where
  input_file_list := input_file_list
  n_inputs := input_file_list.length
  crs_code := crs_code
  resolution := resolution
  output_file_list := []

/-- `Csv2Tif.execute_one` as a state transformer on the instance: the
method body reads `self` but assigns to no attribute, so the state it
yields is the state it received. -/
def Csv2Tif.execute_oneM (s : Csv2Tif) (ih : (ℚ × ℚ) → ℚ → Direction → ℚ × ℚ)
    (fsExists : String → Bool) (readCsv : String → Table) (p : String) :
    Csv2Tif × Except ExecErr (String × Output) :=
  (s, execute_one ih s.resolution s.crs_code fsExists readCsv p)

/-- The `for input_file_name in self.input_file_list` loop of
`execute_all`: inputs are processed in list order and an uncaught
exception aborts the remainder of the batch. -/
def execute_allAux (ih : (ℚ × ℚ) → ℚ → Direction → ℚ × ℚ)
    (fsExists : String → Bool) (readCsv : String → Table) :
    Csv2Tif → List String → Csv2Tif × Except ExecErr Unit
  | s, [] => (s, .ok ())
  | s, p :: rest =>
    let sr := Csv2Tif.execute_oneM s ih fsExists readCsv p
    match sr.2 with
    | .error e => (sr.1, .error e)
    | .ok _ => execute_allAux ih fsExists readCsv sr.1 rest

/-- Embedding of `Csv2Tif.execute_all` (`csv2tif.py` lines 146-151). -/
def Csv2Tif.execute_all (s : Csv2Tif) (ih : (ℚ × ℚ) → ℚ → Direction → ℚ × ℚ)
    (fsExists : String → Bool) (readCsv : String → Table) :
    Csv2Tif × Except ExecErr Unit :=
  execute_allAux ih fsExists readCsv s s.input_file_list

/-- Concrete stand-in for `inverse_haversine` used by the evaluation
theorems: moving `r` meters east adds `r / 100000` degrees of longitude,
moving `r` meters north adds `r / 100000` degrees of latitude. -/
def ih0 (p : ℚ × ℚ) (r : ℚ) : Direction → ℚ × ℚ
  | .east => (p.1, p.2 + r / 100000)
  | .north => (p.1 + r / 100000, p.2)

/-- Well-spread two-row sample table used by witnesses. -/
def tW : Table where
  header := ["lat", "lng", "a", "b"]
  rows := [[35, 139, 1, 2], [36, 140, 3, 4]]

/-- Resolver result on `tW`. -/
def llW : LatLng := ⟨(0, "lat"), (1, "lng")⟩

/-- Single-point table: the degenerate input of the round-trip claim. -/
def tSingle : Table where
  header := ["lat", "lng", "v"]
  rows := [[35, 139, 10]]

/-- Two nearby points (0.0001° apart on each axis) whose bounding box is
smaller than one 50 m cell. -/
def tNarrow : Table where
  header := ["lat", "lng", "v"]
  rows := [[35, 139, 10], [350001 / 10000, 1390001 / 10000, 20]]

/-- Unit transform over a 2×2 extent, for the rasterizer witness. -/
def trW : Transform where
  west := 0
  north := 2
  cw := 1
  ch := 1

/-- Does the `(point, value)` pair `pv` land in raster cell
`(row r, column c)` under transform `tr`? -/
def cellHit (tr : Transform) (r c : Nat) (pv : (ℚ × ℚ) × ℚ) : Bool :=
  rowcolOf tr pv.1 == ((r : Int), (c : Int))

/-! ## Theorems -/

theorem isLat_not_isLng {x : String} (h : isLatName x = true) : isLngName x = false := by
  simp only [isLatName, Bool.or_eq_true, beq_iff_eq] at h
  rcases h with h | h <;> simp only [isLngName, h] <;> rfl

theorem scanLatLng_eq :
    ∀ (cols : List String) (i : Nat) (la lo : Option (Nat × String)),
      scanLatLng i cols la lo =
        (lastMatchScan isLatName i cols la, lastMatchScan isLngName i cols lo) := by
  intro cols
  induction cols with
  | nil => intro i la lo; rfl
  | cons x xs ih =>
    intro i la lo
    cases hla : isLatName x with
    | true =>
      have hlo := isLat_not_isLng hla
      simp [scanLatLng, lastMatchScan, hla, hlo, ih]
    | false =>
      cases hlo : isLngName x with
      | true => simp [scanLatLng, lastMatchScan, hla, hlo, ih]
      | false => simp [scanLatLng, lastMatchScan, hla, hlo, ih]

theorem lastMatchScan_all_false (p : String → Bool) :
    ∀ (cols : List String) (i : Nat) (acc : Option (Nat × String)),
      (∀ x ∈ cols, p x = false) → lastMatchScan p i cols acc = acc := by
  intro cols
  induction cols with
  | nil => intro i acc _; rfl
  | cons x xs ih =>
    intro i acc h
    have hx : p x = false := h x (List.mem_cons_self x xs)
    simp only [lastMatchScan, hx, Bool.false_eq_true, if_false]
    exact ih (i + 1) acc (fun y hy => h y (List.mem_cons_of_mem x hy))

theorem lastMatchScan_isSome_acc (p : String → Bool) :
    ∀ (cols : List String) (i : Nat) (r : Nat × String),
      (lastMatchScan p i cols (some r)).isSome = true := by
  intro cols
  induction cols with
  | nil => intro i r; rfl
  | cons x xs ih =>
    intro i r
    cases hx : p x <;> simp [lastMatchScan, hx, ih]

theorem lastMatchScan_isSome_of_any (p : String → Bool) :
    ∀ (cols : List String) (i : Nat) (acc : Option (Nat × String)),
      cols.any p = true → (lastMatchScan p i cols acc).isSome = true := by
  intro cols
  induction cols with
  | nil => intro i acc h; simp at h
  | cons x xs ih =>
    intro i acc h
    cases hx : p x with
    | true => simp [lastMatchScan, hx, lastMatchScan_isSome_acc]
    | false =>
      have hxs : xs.any p = true := by simpa [hx] using h
      simp only [lastMatchScan, hx, Bool.false_eq_true, if_false]
      exact ih (i + 1) acc hxs

theorem lastMatchScan_unique (p : String → Bool) :
    ∀ (cols : List String) (i : Nat) (acc : Option (Nat × String)) (j : Nat)
      (hj : j < cols.length),
      p (cols.get ⟨j, hj⟩) = true →
      (∀ k (hk : k < cols.length), k ≠ j → p (cols.get ⟨k, hk⟩) = false) →
      lastMatchScan p i cols acc = some (i + j, cols.get ⟨j, hj⟩) := by
  intro cols
  induction cols with
  | nil => intro i acc j hj; exact absurd hj (Nat.not_lt_zero j)
  | cons x xs ih =>
    intro i acc j hj hpj hothers
    cases j with
    | zero =>
      have hx : p x = true := hpj
      have hall : ∀ y ∈ xs, p y = false := by
        intro y hy
        obtain ⟨⟨k, hk⟩, rfl⟩ := List.mem_iff_get.mp hy
        have := hothers (k + 1) (Nat.succ_lt_succ hk) (Nat.succ_ne_zero k)
        simpa using this
      simp only [lastMatchScan, hx, if_true]
      rw [lastMatchScan_all_false p xs (i + 1) (some (i, x)) hall]
      simp
    | succ j =>
      have hx : p x = false := by
        have := hothers 0 (Nat.succ_pos _) (Ne.symm (Nat.succ_ne_zero j))
        simpa using this
      have hj2 : j < xs.length := Nat.lt_of_succ_lt_succ hj
      have hpj2 : p (xs.get ⟨j, hj2⟩) = true := by simpa using hpj
      have hothers2 : ∀ k (hk : k < xs.length), k ≠ j → p (xs.get ⟨k, hk⟩) = false := by
        intro k hk hkj
        have := hothers (k + 1) (Nat.succ_lt_succ hk) (by simpa using hkj)
        simpa using this
      simp only [lastMatchScan, hx, Bool.false_eq_true, if_false]
      rw [ih (i + 1) acc j hj2 hpj2 hothers2]
      have hadd : i + 1 + j = i + (j + 1) := by omega
      rw [hadd]
      rfl

theorem lastMatchScan_mem (p : String → Bool) :
    ∀ (cols : List String) (i : Nat) (acc : Option (Nat × String)) (r : Nat × String),
      lastMatchScan p i cols acc = some r →
      acc = some r ∨ (r.2 ∈ cols ∧ p r.2 = true) := by
  intro cols
  induction cols with
  | nil => intro i acc r h; exact Or.inl h
  | cons x xs ih =>
    intro i acc r h
    cases hx : p x with
    | true =>
      simp only [lastMatchScan, hx, if_true] at h
      rcases ih (i + 1) (some (i, x)) r h with hacc | ⟨hm, hp⟩
      · have hr : (i, x) = r := Option.some.inj hacc
        refine Or.inr ?_
        rw [← hr]
        exact ⟨List.mem_cons_self x xs, hx⟩
      · exact Or.inr ⟨List.mem_cons_of_mem x hm, hp⟩
    | false =>
      simp only [lastMatchScan, hx, Bool.false_eq_true, if_false] at h
      rcases ih (i + 1) acc r h with hacc | ⟨hm, hp⟩
      · exact Or.inl hacc
      · exact Or.inr ⟨List.mem_cons_of_mem x hm, hp⟩

theorem get_latlon_names_ok_inv (cols : List String) (ll : LatLng)
    (h : get_latlon_names cols = .ok ll) :
    lastMatchScan isLatName 0 cols none = some ll.lat ∧
    lastMatchScan isLngName 0 cols none = some ll.lng := by
  obtain ⟨llat, llng⟩ := ll
  unfold get_latlon_names at h
  rw [scanLatLng_eq] at h
  cases hla : lastMatchScan isLatName 0 cols none with
  | none => rw [hla] at h; simp [getLatLonAux] at h
  | some la =>
    cases hlo : lastMatchScan isLngName 0 cols none with
    | none => rw [hla, hlo] at h; simp [getLatLonAux] at h
    | some lo =>
      rw [hla, hlo] at h
      simp only [getLatLonAux, Except.ok.injEq, LatLng.mk.injEq] at h
      rcases h with ⟨h1, h2⟩
      exact ⟨congrArg some h1, congrArg some h2⟩

/-- C3 counterexample: in the header `["lat", "Latitude", "x", "lng"]`
both `"lat"` and `"Latitude"` match the latitude alias set, and the
Column Resolver returns the SECOND match `(1, "Latitude")`, not the
first match `(0, "lat")` claimed by the single left-to-right
first-match rule. -/
theorem get_latlon_names_not_first_match :
    get_latlon_names ["lat", "Latitude", "x", "lng"] =
      .ok ⟨(1, "Latitude"), (3, "lng")⟩ ∧
    ((1, "Latitude") : Nat × String) ≠ ((0, "lat") : Nat × String) := by
  exact ⟨rfl, by decide⟩

/-- C3 amended: whenever the Column Resolver succeeds, each axis is
resolved to the LAST matching column encountered during the single
left-to-right scan of the header (every later alias match overwrites
the stored pair). -/
theorem get_latlon_names_last_match (header : List String) (ll : LatLng)
    (h : get_latlon_names header = .ok ll) :
    lastMatchScan isLatName 0 header none = some ll.lat ∧
    lastMatchScan isLngName 0 header none = some ll.lng :=
  get_latlon_names_ok_inv header ll h

/-- Witness for the amended C3 theorem at the counterexample header. -/
theorem get_latlon_names_last_match_witness :
    lastMatchScan isLatName 0 ["lat", "Latitude", "x", "lng"] none = some (1, "Latitude") ∧
    lastMatchScan isLngName 0 ["lat", "Latitude", "x", "lng"] none = some (3, "lng") :=
  get_latlon_names_last_match ["lat", "Latitude", "x", "lng"]
    ⟨(1, "Latitude"), (3, "lng")⟩ rfl

/-- C4: if exactly one header column matches the latitude alias set
(case-insensitive `"latitude"`/`"lat"`) and exactly one matches the
longitude alias set (`"longitude"`/`"lng"`), the Column Resolver
returns the correct `(index, name)` pair for each axis, whatever the
column order. -/
theorem get_latlon_names_unique_pair (header : List String) (i k : Nat)
    (hi : i < header.length) (hk : k < header.length)
    (hlat : isLatName (header.get ⟨i, hi⟩) = true)
    (hlatu : ∀ j (hj : j < header.length), j ≠ i → isLatName (header.get ⟨j, hj⟩) = false)
    (hlng : isLngName (header.get ⟨k, hk⟩) = true)
    (hlngu : ∀ j (hj : j < header.length), j ≠ k → isLngName (header.get ⟨j, hj⟩) = false) :
    get_latlon_names header = .ok ⟨(i, header.get ⟨i, hi⟩), (k, header.get ⟨k, hk⟩)⟩ := by
  unfold get_latlon_names
  rw [scanLatLng_eq,
    lastMatchScan_unique isLatName header 0 none i hi hlat hlatu,
    lastMatchScan_unique isLngName header 0 none k hk hlng hlngu]
  simp [getLatLonAux]

/-- Witness for C4: coordinate columns in reversed order and mixed
case are still resolved to the right pairs. -/
theorem get_latlon_names_unique_pair_witness :
    get_latlon_names ["Longitude", "LAT", "v"] = .ok ⟨(1, "LAT"), (0, "Longitude")⟩ :=
  get_latlon_names_unique_pair ["Longitude", "LAT", "v"] 1 0 (by decide) (by decide)
    (by decide) (by decide) (by decide) (by decide)

/-- C5 counterexample: the header `["x", "y"]` lacks any longitude-alias
column, but because it also lacks a latitude-alias column — and the
latitude check runs first — the resolver's error names latitude rather
than longitude. -/
theorem get_latlon_names_missing_both :
    get_latlon_names ["x", "y"] = .error (.latNotFound ["x", "y"]) ∧
    ResolveError.namesLongitude (.latNotFound ["x", "y"]) = false :=
  ⟨rfl, rfl⟩

/-- C5 amended: for every header that contains a latitude-alias column
but lacks any longitude-alias column, the resolver fails with the
missing-field error that names longitude and carries the full
column-name list. -/
theorem get_latlon_names_missing_lng (header : List String)
    (hlat : header.any isLatName = true)
    (hlng : ∀ x ∈ header, isLngName x = false) :
    get_latlon_names header = .error (.lngNotFound header) := by
  unfold get_latlon_names
  rw [scanLatLng_eq, lastMatchScan_all_false isLngName header 0 none hlng]
  obtain ⟨la, hla⟩ :=
    Option.isSome_iff_exists.mp (lastMatchScan_isSome_of_any isLatName header 0 none hlat)
  rw [hla]
  simp [getLatLonAux]

/-- Witness for the amended C5 theorem. -/
theorem get_latlon_names_missing_lng_witness :
    (["lat", "x"].any isLatName = true) ∧
    get_latlon_names ["lat", "x"] = .error (.lngNotFound ["lat", "x"]) :=
  ⟨by decide, get_latlon_names_missing_lng ["lat", "x"] (by decide) (by decide)⟩

theorem burnOne_rows (tr : Transform) (g : Grid) (pv : (ℚ × ℚ) × ℚ) :
    (burnOne tr g pv).rows = g.rows := by
  unfold burnOne Grid.setCell
  split <;> rfl

theorem burnOne_cols (tr : Transform) (g : Grid) (pv : (ℚ × ℚ) × ℚ) :
    (burnOne tr g pv).cols = g.cols := by
  unfold burnOne Grid.setCell
  split <;> rfl

theorem burnOne_val_hit (tr : Transform) (g : Grid) (pv : (ℚ × ℚ) × ℚ) (r c : Nat)
    (hr : r < g.rows) (hc : c < g.cols)
    (h : rowcolOf tr pv.1 = ((r : Int), (c : Int))) :
    (burnOne tr g pv).val r c = pv.2 := by
  have hcond : 0 ≤ (rowcolOf tr pv.1).1 ∧ (rowcolOf tr pv.1).1 < (g.rows : Int) ∧
      0 ≤ (rowcolOf tr pv.1).2 ∧ (rowcolOf tr pv.1).2 < (g.cols : Int) := by
    rw [h]
    refine ⟨Int.ofNat_nonneg r, ?_, Int.ofNat_nonneg c, ?_⟩
    · show (r : Int) < (g.rows : Int)
      exact_mod_cast hr
    · show (c : Int) < (g.cols : Int)
      exact_mod_cast hc
  unfold burnOne
  rw [if_pos hcond, h]
  simp [Grid.setCell]

theorem burnOne_val_miss (tr : Transform) (g : Grid) (pv : (ℚ × ℚ) × ℚ) (r c : Nat)
    (h : rowcolOf tr pv.1 ≠ ((r : Int), (c : Int))) :
    (burnOne tr g pv).val r c = g.val r c := by
  unfold burnOne
  split
  · next hb =>
    rcases hb with ⟨h1, _, h3, _⟩
    rw [Grid.setCell]
    simp only []
    rw [if_neg]
    intro hab
    rcases hab with ⟨ha, hb2⟩
    apply h
    have e1 : (rowcolOf tr pv.1).1 = (r : Int) := by
      rw [← Int.toNat_of_nonneg h1, ha]
    have e2 : (rowcolOf tr pv.1).2 = (c : Int) := by
      rw [← Int.toNat_of_nonneg h3, hb2]
    exact Prod.ext e1 e2
  · rfl

theorem foldl_burn_val (tr : Transform) :
    ∀ (shapes : List ((ℚ × ℚ) × ℚ)) (g : Grid) (r c : Nat), r < g.rows → c < g.cols →
      (shapes.foldl (burnOne tr) g).val r c =
        match (shapes.filter (cellHit tr r c)).getLast? with
        | some pv => pv.2
        | none => g.val r c := by
  intro shapes
  induction shapes with
  | nil => intro g r c _ _; rfl
  | cons s rest ih =>
    intro g r c hr hc
    have hr2 : r < (burnOne tr g s).rows := by rw [burnOne_rows]; exact hr
    have hc2 : c < (burnOne tr g s).cols := by rw [burnOne_cols]; exact hc
    have hstep := ih (burnOne tr g s) r c hr2 hc2
    rw [List.foldl_cons, hstep, List.filter_cons]
    cases hhit : cellHit tr r c s with
    | true =>
      simp only [if_true]
      cases hl : rest.filter (cellHit tr r c) with
      | nil =>
        have heq : rowcolOf tr s.1 = ((r : Int), (c : Int)) := by
          simpa [cellHit] using hhit
        exact burnOne_val_hit tr g s r c hr hc heq
      | cons a l =>
        rw [List.getLast?_cons_cons]
        cases hgl : (a :: l).getLast? with
        | none => exact absurd (List.getLast?_eq_none_iff.mp hgl) (List.cons_ne_nil a l)
        | some pv => rfl
    | false =>
      simp only [Bool.false_eq_true, if_false]
      cases hl : rest.filter (cellHit tr r c) with
      | nil =>
        have hne : rowcolOf tr s.1 ≠ ((r : Int), (c : Int)) := by
          simpa [cellHit] using hhit
        exact burnOne_val_miss tr g s r c hne
      | cons a l =>
        cases hgl : (a :: l).getLast? with
        | none => exact absurd (List.getLast?_eq_none_iff.mp hgl) (List.cons_ne_nil a l)
        | some pv => rfl

/-- C7: last-write-wins collision policy of the rasterization loop
(`csv2tif.py` lines 113-121).  For any cell `(r, c)` of the output
array, if the list of `(point, value)` pairs whose point falls in that
cell is non-empty, the final cell value equals the value of the LAST
such pair in iteration order — the pairs being passed in table row
order via `zip(gdf["geometry"], gdf[z_name])`.  In particular for two
points in the same cell the later one's value survives, not the earlier
one's and not an average. -/
theorem rasterize_last_write_wins (shapes : List ((ℚ × ℚ) × ℚ)) (outShape : Int × Int)
    (tr : Transform) (fill : ℚ) (r c : Nat) (v : (ℚ × ℚ) × ℚ)
    (hr : r < outShape.1.toNat) (hc : c < outShape.2.toNat)
    (hlast : (shapes.filter (cellHit tr r c)).getLast? = some v) :
    (rasterize shapes outShape tr fill).val r c = v.2 := by
  unfold rasterize
  rw [foldl_burn_val tr shapes (fillGrid outShape fill) r c hr hc, hlast]

/-- Witness for C7: two coincident points burned into a 2×2 grid; the
cell holds the second point's value 20, not the first point's 10. -/
theorem rasterize_last_write_wins_witness :
    (rasterize [((1/2, 3/2), 10), ((1/2, 3/2), 20)] (2, 2) trW (-9999)).val 0 0 = 20 :=
  rasterize_last_write_wins [((1/2, 3/2), 10), ((1/2, 3/2), 20)] (2, 2) trW (-9999)
    0 0 ((1/2, 3/2), 20) (by decide) (by decide)
    (by
      have h : rowcolOf trW ((1 : ℚ)/2, (3 : ℚ)/2) = (0, 0) := by
        simp only [rowcolOf, trW, Prod.mk.injEq]
        norm_num
      have hb1 : cellHit trW 0 0 (((1 : ℚ)/2, (3 : ℚ)/2), 10) = true := by
        simp only [cellHit]
        rw [h]
        decide
      have hb2 : cellHit trW 0 0 (((1 : ℚ)/2, (3 : ℚ)/2), 20) = true := by
        simp only [cellHit]
        rw [h]
        decide
      simp only [List.filter_cons, hb1, hb2, if_true, List.filter_nil]
      rfl)

/-- C1: a single-point input table does NOT produce a raster with one
non-nodata cell per band.  The bounding box of one point has zero
extent, so both cell counts come out as `int(0 / unit) = 0` and the
conversion aborts (in Python, `rasterio.transform.from_bounds` raises
`ZeroDivisionError` dividing by the zero cell counts, modelled as
`ConvErr.gridZero`); no output raster is written at all. -/
theorem convert_csv_single_point_degenerate :
    tSingle.rows.length = 1 ∧
    convert_csv ih0 50 4326 tSingle = .error ConvErr.gridZero := by
  refine ⟨rfl, ?_⟩
  show convert_csvAux2 ih0 50 4326 tSingle ⟨(0, "lat"), (1, "lng")⟩ [((139 : ℚ), 35)] =
    Except.error ConvErr.gridZero
  have h1 : ¬((ih0 ((35 : ℚ), (139 : ℚ)) 50 .east).2 - (139 : ℚ) = 0 ∨
      (ih0 ((35 : ℚ), (139 : ℚ)) 50 .north).1 - (35 : ℚ) = 0) := by
    norm_num [ih0]
  have h2 : truncRat (((bboxOf ((139 : ℚ), 35) []).maxLon - (bboxOf ((139 : ℚ), 35) []).minLon) /
        ((ih0 ((35 : ℚ), (139 : ℚ)) 50 .east).2 - (139 : ℚ))) = 0 ∨
      truncRat (((bboxOf ((139 : ℚ), 35) []).maxLat - (bboxOf ((139 : ℚ), 35) []).minLat) /
        ((ih0 ((35 : ℚ), (139 : ℚ)) 50 .north).1 - (35 : ℚ))) = 0 := by
    left
    norm_num [bboxOf, truncRat]
  simp only [convert_csvAux2]
  rw [if_neg h1, if_pos h2]

/-- C2: a bounding box narrower than one cell on the longitude axis
(two points 0.0001° apart at a 50 m resolution) does NOT raise any
InvalidInput-classified error: the conversion runs unguarded into the
zero cell count and dies with the unclassified division-by-zero of
`rasterio.transform.from_bounds` (`ConvErr.gridZero`), which is neither
of the two `OSError` validations the program performs. -/
theorem convert_csv_degenerate_unguarded :
    convert_csv ih0 50 4326 tNarrow = .error ConvErr.gridZero := by
  show convert_csvAux2 ih0 50 4326 tNarrow ⟨(0, "lat"), (1, "lng")⟩
    [((139 : ℚ), 35), ((1390001 / 10000 : ℚ), (350001 / 10000 : ℚ))] =
    Except.error ConvErr.gridZero
  have h1 : ¬((ih0 ((35 : ℚ), (139 : ℚ)) 50 .east).2 - (139 : ℚ) = 0 ∨
      (ih0 ((35 : ℚ), (139 : ℚ)) 50 .north).1 - (35 : ℚ) = 0) := by
    norm_num [ih0]
  have hbb : bboxOf ((139 : ℚ), 35) [((1390001 / 10000 : ℚ), (350001 / 10000 : ℚ))] =
      { minLon := 139, minLat := 35, maxLon := 1390001 / 10000, maxLat := 350001 / 10000 } := by
    simp only [bboxOf, List.foldl, BBox.mk.injEq]
    refine ⟨min_eq_left (by norm_num), min_eq_left (by norm_num),
      max_eq_right (by norm_num), max_eq_right (by norm_num)⟩
  have h2 : truncRat (((bboxOf ((139 : ℚ), 35)
          [((1390001 / 10000 : ℚ), (350001 / 10000 : ℚ))]).maxLon -
        (bboxOf ((139 : ℚ), 35) [((1390001 / 10000 : ℚ), (350001 / 10000 : ℚ))]).minLon) /
        ((ih0 ((35 : ℚ), (139 : ℚ)) 50 .east).2 - (139 : ℚ))) = 0 ∨
      truncRat (((bboxOf ((139 : ℚ), 35)
          [((1390001 / 10000 : ℚ), (350001 / 10000 : ℚ))]).maxLat -
        (bboxOf ((139 : ℚ), 35) [((1390001 / 10000 : ℚ), (350001 / 10000 : ℚ))]).minLat) /
        ((ih0 ((35 : ℚ), (139 : ℚ)) 50 .north).1 - (35 : ℚ))) = 0 := by
    left
    rw [hbb]
    norm_num [ih0, truncRat]
  simp only [convert_csvAux2]
  rw [if_neg h1, if_pos h2]

theorem convert_csv_ok (ih : (ℚ × ℚ) → ℚ → Direction → ℚ × ℚ) (res : ℚ) (code : Nat)
    (t : Table) (ll : LatLng) (g0 : ℚ × ℚ) (grest : List (ℚ × ℚ))
    (h1 : get_latlon_names t.header = .ok ll)
    (h2 : t.rows.map (fun row => (row.getD ll.lng.1 0, row.getD ll.lat.1 0)) = g0 :: grest)
    (h3 : (ih (g0.2, g0.1) res .east).2 - g0.1 ≠ 0)
    (h4 : (ih (g0.2, g0.1) res .north).1 - g0.2 ≠ 0)
    (h5 : truncRat (((bboxOf g0 grest).maxLon - (bboxOf g0 grest).minLon) /
        ((ih (g0.2, g0.1) res .east).2 - g0.1)) ≠ 0)
    (h6 : truncRat (((bboxOf g0 grest).maxLat - (bboxOf g0 grest).minLat) /
        ((ih (g0.2, g0.1) res .north).1 - g0.2)) ≠ 0) :
    convert_csv ih res code t = .ok (successOutput ih res code t ll g0 grest) := by
  unfold convert_csv
  rw [h1]
  simp only [convert_csvAux1]
  rw [h2]
  simp only [convert_csvAux2]
  rw [if_neg (not_or.mpr ⟨h3, h4⟩), if_neg (not_or.mpr ⟨h5, h6⟩)]

/-- C6: on any successfully sized input, the grid is derived from the
FIRST point `g0` in row order (the reference for both
`inverse_haversine` offsets), and the written profile's width and
height are the truncations toward zero of the bounding-box extents
divided by the east-offset longitude delta resp. the north-offset
latitude delta. -/
theorem convert_csv_grid_sizing (ih : (ℚ × ℚ) → ℚ → Direction → ℚ × ℚ) (res : ℚ)
    (code : Nat) (t : Table) (ll : LatLng) (g0 : ℚ × ℚ) (grest : List (ℚ × ℚ))
    (h1 : get_latlon_names t.header = .ok ll)
    (h2 : t.rows.map (fun row => (row.getD ll.lng.1 0, row.getD ll.lat.1 0)) = g0 :: grest)
    (h3 : (ih (g0.2, g0.1) res .east).2 - g0.1 ≠ 0)
    (h4 : (ih (g0.2, g0.1) res .north).1 - g0.2 ≠ 0)
    (h5 : truncRat (((bboxOf g0 grest).maxLon - (bboxOf g0 grest).minLon) /
        ((ih (g0.2, g0.1) res .east).2 - g0.1)) ≠ 0)
    (h6 : truncRat (((bboxOf g0 grest).maxLat - (bboxOf g0 grest).minLat) /
        ((ih (g0.2, g0.1) res .north).1 - g0.2)) ≠ 0) :
    Except.map (fun o => (o.profile.width, o.profile.height)) (convert_csv ih res code t) =
      .ok (truncRat (((bboxOf g0 grest).maxLon - (bboxOf g0 grest).minLon) /
            ((ih (g0.2, g0.1) res .east).2 - g0.1)),
          truncRat (((bboxOf g0 grest).maxLat - (bboxOf g0 grest).minLat) /
            ((ih (g0.2, g0.1) res .north).1 - g0.2))) := by
  rw [convert_csv_ok ih res code t ll g0 grest h1 h2 h3 h4 h5 h6]
  rfl

/-- Witness for C6: a two-point table spread over 1° on each axis, with
a 50 m cell of 1/2000° on each axis, yields a 2000×2000 grid. -/
theorem convert_csv_grid_sizing_witness :
    Except.map (fun o => (o.profile.width, o.profile.height)) (convert_csv ih0 50 4326 tW) =
      .ok ((2000 : Int), (2000 : Int)) :=
  (convert_csv_grid_sizing ih0 50 4326 tW llW ((139 : ℚ), 35) [((140 : ℚ), 36)] rfl rfl
      (by norm_num [ih0]) (by norm_num [ih0])
      (by norm_num [ih0, bboxOf, List.foldl, max_def, min_def, truncRat])
      (by norm_num [ih0, bboxOf, List.foldl, max_def, min_def, truncRat])).trans
    (by norm_num [ih0, bboxOf, List.foldl, max_def, min_def, truncRat])

theorem enumFrom_filter_two_map_snd {α : Type} [DecidableEq α] (la lo : α) :
    ∀ (l : List α) (n : Nat),
      ((List.enumFrom n l).filter (fun p => !(p.2 == la) && !(p.2 == lo))).map Prod.snd
        = l.filter (fun cn => !(cn == la) && !(cn == lo)) := by
  intro l
  induction l with
  | nil => intro n; rfl
  | cons x xs ih =>
    intro n
    simp only [List.enumFrom, List.filter_cons]
    cases hx : (!(x == la) && !(x == lo)) with
    | true => simp [hx, ih]
    | false => simp [hx, ih]

theorem filter_ne_one_length {α : Type} [DecidableEq α] (a : α) :
    ∀ l : List α, a ∈ l → l.Nodup →
      (l.filter (fun x => !(x == a))).length = l.length - 1 := by
  intro l
  induction l with
  | nil => intro h _; exact absurd h (List.not_mem_nil a)
  | cons x xs ih =>
    intro hmem hnd
    rcases List.nodup_cons.mp hnd with ⟨hxnotin, hndxs⟩
    by_cases hax : x = a
    · subst hax
      have hall : xs.filter (fun y => !(y == x)) = xs := by
        apply List.filter_eq_self.mpr
        intro y hy
        have : y ≠ x := fun he => hxnotin (he ▸ hy)
        simp [this]
      simp [List.filter_cons, hall]
    · have hmemxs : a ∈ xs := by
        rcases List.mem_cons.mp hmem with h | h
        · exact absurd h.symm hax
        · exact h
      have hlen := ih hmemxs hndxs
      have hkeep : (!(x == a)) = true := by simp [hax]
      have hpos : 0 < xs.length := List.length_pos.mpr (List.ne_nil_of_mem hmemxs)
      simp only [List.filter_cons, hkeep, if_true, List.length_cons, hlen]
      omega

theorem filter_two_ne_length {α : Type} [DecidableEq α] (la lo : α) (l : List α)
    (hla : la ∈ l) (hlo : lo ∈ l) (hne : la ≠ lo) (hnd : l.Nodup) :
    (l.filter (fun cn => !(cn == la) && !(cn == lo))).length = l.length - 2 := by
  rw [← List.filter_filter (fun cn => !(cn == lo)) l]
  have hmem2 : la ∈ l.filter (fun cn => !(cn == lo)) := by
    rw [List.mem_filter]
    exact ⟨hla, by simp [hne]⟩
  have hnd2 : (l.filter (fun cn => !(cn == lo))).Nodup :=
    hnd.filter (fun cn => !(cn == lo))
  have hlen2 := filter_ne_one_length lo l hlo hnd
  have := filter_ne_one_length la (l.filter (fun cn => !(cn == lo))) hmem2 hnd2
  rw [this, hlen2]
  have h2 : 2 ≤ l.length := by
    rcases List.mem_iff_get.mp hla with ⟨⟨i, hi⟩, hgi⟩
    rcases List.mem_iff_get.mp hlo with ⟨⟨j, hj⟩, hgj⟩
    have hij : i ≠ j := by
      intro he
      apply hne
      have hf : (⟨i, hi⟩ : Fin l.length) = ⟨j, hj⟩ := Fin.ext he
      rw [← hgi, ← hgj, hf]
    omega
  omega

/-- C8: on any successfully converted table with pairwise-distinct
column names (pandas guarantees distinct names by mangling duplicates),
the written raster has band count = column count − 2, sample type
float32, nodata −9999.0, CRS string `"EPSG:" ++ code`, and its bands
carry exactly the non-coordinate columns in original header order. -/
theorem convert_csv_output_contract (ih : (ℚ × ℚ) → ℚ → Direction → ℚ × ℚ) (res : ℚ)
    (code : Nat) (t : Table) (ll : LatLng) (g0 : ℚ × ℚ) (grest : List (ℚ × ℚ))
    (hnd : t.header.Nodup)
    (h1 : get_latlon_names t.header = .ok ll)
    (h2 : t.rows.map (fun row => (row.getD ll.lng.1 0, row.getD ll.lat.1 0)) = g0 :: grest)
    (h3 : (ih (g0.2, g0.1) res .east).2 - g0.1 ≠ 0)
    (h4 : (ih (g0.2, g0.1) res .north).1 - g0.2 ≠ 0)
    (h5 : truncRat (((bboxOf g0 grest).maxLon - (bboxOf g0 grest).minLon) /
        ((ih (g0.2, g0.1) res .east).2 - g0.1)) ≠ 0)
    (h6 : truncRat (((bboxOf g0 grest).maxLat - (bboxOf g0 grest).minLat) /
        ((ih (g0.2, g0.1) res .north).1 - g0.2)) ≠ 0) :
    Except.map (fun o =>
        (o.profile.count, o.profile.dtype, o.profile.crs, o.profile.nodata,
          o.bands.map Prod.fst)) (convert_csv ih res code t) =
      .ok (t.header.length - 2, "float32", "EPSG:" ++ toString code, (-9999 : ℚ),
        t.header.filter (fun cn => !(cn == ll.lat.2) && !(cn == ll.lng.2))) := by
  have hinv := get_latlon_names_ok_inv t.header ll h1
  rcases lastMatchScan_mem isLatName t.header 0 none ll.lat hinv.1 with hbad | ⟨hlmem, hlp⟩
  · exact absurd hbad (by simp)
  rcases lastMatchScan_mem isLngName t.header 0 none ll.lng hinv.2 with hbad | ⟨hgmem, hgp⟩
  · exact absurd hbad (by simp)
  have hnames : ll.lat.2 ≠ ll.lng.2 := by
    intro he
    have hfalse := isLat_not_isLng hlp
    rw [he] at hfalse
    rw [hfalse] at hgp
    exact Bool.noConfusion hgp
  rw [convert_csv_ok ih res code t ll g0 grest h1 h2 h3 h4 h5 h6]
  have hsnd := enumFrom_filter_two_map_snd ll.lat.2 ll.lng.2 t.header 0
  have hcount : (dropCols t.header ll.lat.2 ll.lng.2).length = t.header.length - 2 := by
    have hml : (dropCols t.header ll.lat.2 ll.lng.2).length =
        ((dropCols t.header ll.lat.2 ll.lng.2).map Prod.snd).length :=
      (List.length_map _ _).symm
    rw [hml, dropCols, hsnd]
    exact filter_two_ne_length ll.lat.2 ll.lng.2 t.header hlmem hgmem hnames hnd
  simp only [successOutput, Except.map]
  refine congrArg Except.ok ?_
  simp only [Prod.mk.injEq]
  refine ⟨hcount, trivial, trivial, trivial, ?_⟩
  rw [List.map_map]
  exact hsnd

/-- Witness for C8 on the sample table `tW`: 4 columns give 2 bands
named `"a"` and `"b"` in header order, float32, nodata −9999,
`"EPSG:4326"`. -/
theorem convert_csv_output_contract_witness :
    Except.map (fun o =>
        (o.profile.count, o.profile.dtype, o.profile.crs, o.profile.nodata,
          o.bands.map Prod.fst)) (convert_csv ih0 50 4326 tW) =
      .ok (2, "float32", "EPSG:4326", (-9999 : ℚ), ["a", "b"]) :=
  (convert_csv_output_contract ih0 50 4326 tW llW ((139 : ℚ), 35) [((140 : ℚ), 36)]
      (by decide) rfl rfl
      (by norm_num [ih0]) (by norm_num [ih0])
      (by norm_num [ih0, bboxOf, List.foldl, max_def, min_def, truncRat])
      (by norm_num [ih0, bboxOf, List.foldl, max_def, min_def, truncRat])).trans
    rfl

/-- C9: `execute_one` validates existence before the file extension —
a missing path yields the file-not-found error regardless of its
extension; the invalid-extension error can only occur for existing
paths; and the extension test compares the lowercased suffix against
`".csv"`, so it is case-insensitive: any suffix lowercasing to `".csv"`
passes, any other suffix of an existing path fails. -/
theorem execute_one_validation (ih : (ℚ × ℚ) → ℚ → Direction → ℚ × ℚ) (res : ℚ)
    (code : Nat) (fsExists : String → Bool) (readCsv : String → Table) (p : String) :
    (fsExists p = false →
      execute_one ih res code fsExists readCsv p = .error .fileNotFound) ∧
    (execute_one ih res code fsExists readCsv p = .error .invalidExtension →
      fsExists p = true) ∧
    (fsExists p = true → lowerStr (pySplitext (basenameOf p)).2 ≠ ".csv" →
      execute_one ih res code fsExists readCsv p = .error .invalidExtension) ∧
    (lowerStr (pySplitext (basenameOf p)).2 = ".csv" →
      execute_one ih res code fsExists readCsv p ≠ .error .invalidExtension) := by
  simp only [execute_one]
  by_cases hfs : fsExists p = false
  · rw [if_pos hfs]
    refine ⟨fun _ => rfl, ?_, ?_, ?_⟩
    · intro h; simp at h
    · intro h; rw [h] at hfs; exact absurd hfs (by simp)
    · intro _ h; simp at h
  · rw [if_neg hfs]
    have hfs2 : fsExists p = true := by
      cases hq : fsExists p
      · exact absurd hq hfs
      · rfl
    by_cases hsuf : lowerStr (pySplitext (basenameOf p)).2 = ".csv"
    · rw [if_neg (by simp [hsuf])]
      refine ⟨fun h => absurd h hfs, ?_, ?_, ?_⟩
      · intro h
        exfalso
        cases hcv : convert_csv ih res code (readCsv p) with
        | error e => rw [hcv] at h; simp at h
        | ok o => rw [hcv] at h; simp at h
      · intro _ h; exact absurd hsuf h
      · intro _ h
        cases hcv : convert_csv ih res code (readCsv p) with
        | error e => rw [hcv] at h; simp at h
        | ok o => rw [hcv] at h; simp at h
    · rw [if_pos hsuf]
      exact ⟨fun h => absurd h hfs, fun _ => hfs2, fun _ _ => rfl, fun h => absurd h hsuf⟩

/-- Witness for C9: a missing `"b.txt"` errors file-not-found even
though its extension is also invalid; an existing `"b.txt"` errors
invalid-extension; an existing upper-case `"d/data.CSV"` passes the
extension check. -/
theorem execute_one_validation_witness :
    execute_one ih0 50 4326 (fun _ => false) (fun _ => tW) ("b.txt") =
      .error .fileNotFound ∧
    execute_one ih0 50 4326 (fun _ => true) (fun _ => tW) ("b.txt") =
      .error .invalidExtension ∧
    execute_one ih0 50 4326 (fun _ => true) (fun _ => tW) ("d/data.CSV") ≠
      .error .invalidExtension :=
  ⟨(execute_one_validation ih0 50 4326 (fun _ => false) (fun _ => tW) ("b.txt")).1 rfl,
    (execute_one_validation ih0 50 4326 (fun _ => true) (fun _ => tW) ("b.txt")).2.2.1
      rfl (by decide),
    (execute_one_validation ih0 50 4326 (fun _ => true) (fun _ => tW) ("d/data.CSV")).2.2.2
      (by decide)⟩

/-- C10: `output_file_list` is initialised to the empty list by
`__init__`, and neither `execute_one` (hence neither `convert_csv`,
which it wraps) nor `execute_all` ever assigns to it: the instance
state out of every method equals the state in, so after `execute_all`
on a fresh instance the attribute is still `[]`. -/
theorem output_file_list_frame (ih : (ℚ × ℚ) → ℚ → Direction → ℚ × ℚ)
    (fsExists : String → Bool) (readCsv : String → Table)
    (files : List String) (code : Nat) (res : ℚ) (s : Csv2Tif) (p : String) :
    (Csv2Tif.new files code res).output_file_list = [] ∧
    (s.execute_oneM ih fsExists readCsv p).1.output_file_list = s.output_file_list ∧
    (s.execute_all ih fsExists readCsv).1.output_file_list = s.output_file_list ∧
    ((Csv2Tif.new files code res).execute_all ih fsExists readCsv).1.output_file_list
      = [] := by
  have haux : ∀ (l : List String) (st : Csv2Tif),
      (execute_allAux ih fsExists readCsv st l).1 = st := by
    intro l
    induction l with
    | nil => intro st; rfl
    | cons q rest ihq =>
      intro st
      simp only [execute_allAux, Csv2Tif.execute_oneM]
      cases hc : execute_one ih st.resolution st.crs_code fsExists readCsv q with
      | error e => rfl
      | ok o => exact ihq st
  refine ⟨rfl, rfl, ?_, ?_⟩
  · exact congrArg Csv2Tif.output_file_list (haux s.input_file_list s)
  · exact (congrArg Csv2Tif.output_file_list (haux _ _)).trans rfl

end Vec2Tif
